import Mathlib

/-!
Verification development for the verifier side of the CL anonymous-credential
proof engine (`libindy-crypto`).  The externally visible slice of the code is
the FFI shell `src/ffi/cl/verifier.rs`; the core engine
(`ProofVerifier`, `Nonce` (de)serialization, `SubProofRequest.validate_against`,
the verification-equation arithmetic and the challenge-transcript hashing) is
specified in the design document and modelled here from that specification.
Machine integers and big integers are embedded as `Nat`; strings crossing the
FFI boundary are embedded as `List Char`; raw pointers are embedded as `Nat`
with `0` playing the role of the null pointer; the process heap is explicit
state (`FFIState`).
-/

/-- Errors of the core library.  `InvalidStructure`, `InvalidState` and
`ProofRejected` are the error conditions named by the specification;
`DuplicateKeyId` is the dedicated error for re-using a key id in one
`ProofVerifier`. -/
inductive IndyCryptoError where
  | InvalidStructure
  | InvalidState
  | ProofRejected
  | DuplicateKeyId
deriving DecidableEq, Repr

/-- Error codes returned across the FFI boundary (`ffi::ErrorCode`). -/
inductive ErrorCode where
  | Success
  | CommonInvalidParam1
  | CommonInvalidParam2
  | CommonInvalidParam3
  | CommonInvalidParam4
  | CommonInvalidParam5
  | CommonInvalidParam6
  | CommonInvalidState
  | CommonInvalidStructure
  | AnoncredsProofRejected
  | AnoncredsDuplicateKeyId
deriving DecidableEq, Repr

/-- Mapping of core errors to FFI error codes (`errors::ToErrorCode`). -/
def IndyCryptoError.to_error_code : IndyCryptoError → ErrorCode
  | .InvalidStructure => .CommonInvalidStructure
  | .InvalidState => .CommonInvalidState
  | .ProofRejected => .AnoncredsProofRejected
  | .DuplicateKeyId => .AnoncredsDuplicateKeyId

/-- Modelled from the spec: a `Nonce` is a large non-negative integer
(the `BigNumber` inside the Rust `Nonce` struct), compared by value. -/
structure Nonce where
  value : Nat
deriving DecidableEq, Repr

instance : Inhabited Nonce := ⟨⟨0⟩⟩

/-- Modelled from the spec: a predicate descriptor of a `SubProofRequest`
(attribute name, threshold of a range check such as "age > 18").  Only the
attribute name is relevant to the structural invariants verified here. -/
structure Predicate where
  attr_name : String
  threshold : Nat
deriving DecidableEq, Repr

/-- Modelled from the spec: a `SubProofRequest` holds the revealed-attribute
names and the predicate descriptors for one credential. -/
structure SubProofRequest where
  revealed_attrs : List String
  predicates : List Predicate
deriving DecidableEq, Repr

/-- Modelled from the spec: a `ClaimSchema` is the full ordered list of
attribute names of one credential. -/
structure ClaimSchema where
  attr_names : List String
deriving DecidableEq, Repr

/-- Modelled from the spec: the issuer public key material referenced by the
primary verification equation
`commitment = key_component ^ response * revealed_term * sig_component ^ challenge mod modulus`. -/
structure IssuerPublicKey where
  modulus : Nat
  key_component : Nat
  attr_base : Nat
  sig_component : Nat
deriving DecidableEq, Repr

/-- Modelled from the spec: the public accumulator material referenced by the
non-revocation verification equation. -/
structure RevocationRegistryPublic where
  modulus : Nat
  base : Nat
  sig_component : Nat
deriving DecidableEq, Repr

/-- Modelled from the spec: one per-credential sub-proof inside a `Proof`:
its response value, the revealed attribute names with their values, and the
optional non-revocation response (present exactly when the sub-proof covers a
revocation registry). -/
structure SubProof where
  primary_response : Nat
  revealed_values : List (String × Nat)
  non_rev_response : Option Nat
deriving DecidableEq, Repr

/-- Modelled from the spec: a `Proof` is an ordered sequence of sub-proofs
plus one aggregated Fiat-Shamir challenge shared by all of them. -/
structure Proof where
  sub_proofs : List SubProof
  aggregated_challenge : Nat
deriving DecidableEq, Repr

instance : Inhabited Proof := ⟨⟨[], 0⟩⟩

/-- Modelled from the spec: one accumulated entry of a `ProofVerifier`:
the caller-supplied key id and the associated request, schema and key
material. -/
structure VerifierEntry where
  key_id : String
  sub_proof_request : SubProofRequest
  claim_schema : ClaimSchema
  issuer_pub_key : IssuerPublicKey
  rev_reg_pub : Option RevocationRegistryPublic
deriving DecidableEq, Repr

/-- Modelled from the spec: the `ProofVerifier` state machine
`Accumulating -> Verified` (`Verified` is terminal). -/
inductive VerifierState where
  | Accumulating
  | Verified
deriving DecidableEq, Repr

/-- Modelled from the spec: a `ProofVerifier` is an ordered mapping from key
ids to accumulated entries, together with its state-machine state. -/
structure ProofVerifier where
  entries : List VerifierEntry
  state : VerifierState
deriving DecidableEq, Repr

instance : Inhabited ProofVerifier := ⟨⟨[], .Accumulating⟩⟩

/-- Modelled from the spec: `Verifier::new_proof_verifier` creates an empty
verifier in the `Accumulating` state. -/
def Verifier.new_proof_verifier : ProofVerifier :=
  { entries := [], state := .Accumulating }

/-- Modelled from the spec: `SubProofRequest.validate_against(schema)` fails
with `InvalidStructure` if a revealed attribute is absent from the schema, or
a predicate references a revealed attribute; otherwise it succeeds.  Pure
value-level check, no side effects. -/
def SubProofRequest.validate_against (spr : SubProofRequest) (schema : ClaimSchema) :
    Except IndyCryptoError Unit :=
  if spr.revealed_attrs.all (fun a => schema.attr_names.contains a) &&
     spr.predicates.all (fun p => !spr.revealed_attrs.contains p.attr_name) then
    .ok ()
  else
    .error .InvalidStructure

/-- Key ids currently present in a verifier, in insertion order. -/
def ProofVerifier.key_ids (pv : ProofVerifier) : List String :=
  pv.entries.map VerifierEntry.key_id

/-- Modelled from the spec: `ProofVerifier::add_sub_proof_request`.  Fails
with `InvalidState` outside the `Accumulating` state, with `DuplicateKeyId`
if the key id is already present, with `InvalidStructure` if the request does
not validate against the schema; otherwise appends the new entry at the end
of the ordered mapping.  The verifier component of the result is the
(possibly unchanged) verifier, making the mutation of the Rust `&mut self`
explicit. -/
def ProofVerifier.add_sub_proof_request (pv : ProofVerifier) (key_id : String)
    (spr : SubProofRequest) (schema : ClaimSchema) (ipk : IssuerPublicKey)
    (rrp : Option RevocationRegistryPublic) :
    Option IndyCryptoError × ProofVerifier :=
  if pv.state = VerifierState.Verified then
    (some .InvalidState, pv)
  else if pv.key_ids.contains key_id then
    (some .DuplicateKeyId, pv)
  else
    match spr.validate_against schema with
    | .error e => (some e, pv)
    | .ok () =>
      (none, { pv with
               entries := pv.entries ++
                 [{ key_id := key_id, sub_proof_request := spr,
                    claim_schema := schema, issuer_pub_key := ipk,
                    rev_reg_pub := rrp }] })

/-- Modelled from the spec: the revealed-attribute term of the primary
verification equation, a product of attribute-base powers of the revealed
values, reduced modulo the issuer modulus. -/
def revealed_term (ipk : IssuerPublicKey) (vals : List (String × Nat)) : Nat :=
  (vals.foldl (fun acc kv => acc * ipk.attr_base ^ kv.2) 1) % ipk.modulus

/-- Modelled from the spec: `recompute_primary_commitment` evaluates the
CL-signature verification equation
`key_component ^ response * revealed_term * sig_component ^ challenge mod modulus`. -/
def recompute_primary_commitment (ipk : IssuerPublicKey) (response : Nat)
    (vals : List (String × Nat)) (challenge : Nat) : Nat :=
  (ipk.key_component ^ response * revealed_term ipk vals *
    ipk.sig_component ^ challenge) % ipk.modulus

/-- Modelled from the spec: `recompute_non_revocation_commitment` evaluates
the accumulator membership equation for the non-revocation part of a
sub-proof. -/
def recompute_non_revocation_commitment (rrp : RevocationRegistryPublic)
    (response : Nat) (challenge : Nat) : Nat :=
  (rrp.base ^ response * rrp.sig_component ^ challenge) % rrp.modulus

/-- Ordered commitment sequence recomputed from the accumulated entries and
the proof's sub-proofs, in insertion order: for each pair, the primary
commitment followed by the non-revocation commitment when both sides carry
revocation material. -/
def recompute_commitments : List VerifierEntry → List SubProof → Nat → List Nat
  | [], _, _ => []
  | _, [], _ => []
  | e :: es, sp :: sps, challenge =>
    recompute_primary_commitment e.issuer_pub_key sp.primary_response
        sp.revealed_values challenge ::
      (match e.rev_reg_pub, sp.non_rev_response with
       | some rrp, some r => [recompute_non_revocation_commitment rrp r challenge]
       | _, _ => []) ++
      recompute_commitments es sps challenge

/-- Byte width of the canonical fixed-width big-integer encoding used by the
challenge transcript. -/
def commitment_byte_width : Nat := 32

/-- Canonical fixed-width big-endian byte encoding of a big integer: `w`
bytes holding `n mod 256^w`. -/
def encode_fixed : Nat → Nat → List Nat
  | 0, _ => []
  | w + 1, n => (n / 256 ^ w) % 256 :: encode_fixed w (n % 256 ^ w)

/-- Concatenation of the fixed-width encodings of the ordered commitment
values, in accumulation order. -/
def serialize_commitments : List Nat → List Nat
  | [] => []
  | c :: cs => encode_fixed commitment_byte_width c ++ serialize_commitments cs

/-- Modelled from the spec: the cryptographic hash-to-integer function of the
Fiat-Shamir transcript.  The spec requires that any reordering, omission or
re-encoding of the transcript change the challenge, so the hash is idealized
as a collision-free (injective) map from byte sequences to integers, the
standard symbolic model of a cryptographic hash. -/
def hash_to_int : List Nat → Nat
  | [] => 1
  | b :: bs => b % 256 + 256 * hash_to_int bs

/-- Modelled from the spec: `ChallengeTranscriptBuilder::build` serializes
each commitment in its canonical fixed-width encoding, concatenates them in
accumulation order, appends the nonce's encoding, and hashes the
concatenation to an integer challenge. -/
def ChallengeTranscriptBuilder.build (ordered_commitments : List Nat)
    (nonce : Nonce) : Nat :=
  hash_to_int (serialize_commitments ordered_commitments ++
    encode_fixed commitment_byte_width nonce.value)

/-- Revocation-presence flags of proof and accumulated requests agree
position by position. -/
def rev_flags_match : List VerifierEntry → List SubProof → Bool
  | [], [] => true
  | e :: es, sp :: sps =>
    (e.rev_reg_pub.isSome == sp.non_rev_response.isSome) && rev_flags_match es sps
  | _, _ => false

/-- Revealed attribute names supplied by each sub-proof exactly match the
names requested by the corresponding accumulated request. -/
def reveals_match : List VerifierEntry → List SubProof → Bool
  | [], [] => true
  | e :: es, sp :: sps =>
    (sp.revealed_values.map Prod.fst == e.sub_proof_request.revealed_attrs) &&
      reveals_match es sps
  | _, _ => false

/-- Challenge recomputed by `verify` for a given verifier, proof and nonce:
hash of the transcript built from the commitments recomputed from the
proof's own responses under its embedded challenge, plus the nonce. -/
def recomputed_challenge (pv : ProofVerifier) (proof : Proof) (nonce : Nonce) : Nat :=
  ChallengeTranscriptBuilder.build
    (recompute_commitments pv.entries proof.sub_proofs proof.aggregated_challenge)
    nonce

/-- Modelled from the spec: `ProofVerifier::verify(proof, nonce)`.
Fails with `InvalidState` when already `Verified`; fails with `ProofRejected`
on a structural mismatch (sub-proof count, or a revocation-presence flag);
otherwise recomputes all commitments in insertion order, rebuilds the
challenge with the nonce, and returns the boolean comparison against the
embedded challenge (conjoined with the reveal/request consistency check),
transitioning the verifier to the terminal `Verified` state.  Cryptographic
invalidity is the normal `ok false` result, never an error. -/
def ProofVerifier.verify (pv : ProofVerifier) (proof : Proof) (nonce : Nonce) :
    Except IndyCryptoError Bool × ProofVerifier :=
  if pv.state = VerifierState.Verified then
    (.error .InvalidState, pv)
  else if proof.sub_proofs.length ≠ pv.entries.length then
    (.error .ProofRejected, pv)
  else if ¬ rev_flags_match pv.entries proof.sub_proofs then
    (.error .ProofRejected, pv)
  else
    let c_hat := recomputed_challenge pv proof nonce
    let valid := reveals_match pv.entries proof.sub_proofs &&
      decide (c_hat = proof.aggregated_challenge)
    (.ok valid, { pv with state := .Verified })

/-- Character of a decimal digit. -/
def digit_char (d : Nat) : Char := Char.ofNat (48 + d)

/-- Numeric value of a decimal digit character, `none` on a non-digit. -/
def char_digit (c : Char) : Option Nat :=
  if 48 ≤ c.toNat ∧ c.toNat ≤ 57 then some (c.toNat - 48) else none

/-- Decimal representation of a natural number as characters (big-endian;
`0` is rendered as "0"). -/
def dec_chars (n : Nat) : List Char :=
  if n = 0 then [Char.ofNat 48]
  else ((Nat.digits 10 n).map digit_char).reverse

/-- Modelled from the spec: `Nonce::to_json` renders the nonce's big integer
as its decimal digits wrapped in JSON string quotes (the serde encoding of
the underlying `BigNumber`). -/
def Nonce.to_json (n : Nonce) : List Char :=
  Char.ofNat 34 :: dec_chars n.value ++ [Char.ofNat 34]

/-- Big-endian decimal digit list to a natural number. -/
def of_dec_digits (ds : List Nat) : Nat := Nat.ofDigits 10 ds.reverse

/-- Digit values of a character run; `none` as soon as a non-digit occurs. -/
def map_digits : List Char → Option (List Nat)
  | [] => some []
  | c :: cs =>
    match char_digit c, map_digits cs with
    | some d, some ds => some (d :: ds)
    | _, _ => none

/-- Parses a non-empty big-endian run of decimal digit characters. -/
def parse_dec_chars (cs : List Char) : Option Nat :=
  match map_digits cs with
  | some ds => if ds.isEmpty then none else some (of_dec_digits ds)
  | none => none

/-- Modelled from the spec: `Nonce::from_json` accepts a JSON string of
decimal digits and fails with `InvalidStructure` on anything else (the serde
decode failure surfaced at the boundary). -/
def Nonce.from_json (cs : List Char) : Except IndyCryptoError Nonce :=
  match cs with
  | q1 :: rest =>
    if q1 = Char.ofNat 34 ∧ rest.getLast? = some (Char.ofNat 34) then
      match parse_dec_chars (rest.dropLast) with
      | some v => .ok ⟨v⟩
      | none => .error .InvalidStructure
    else .error .InvalidStructure
  | [] => .error .InvalidStructure

/-- Association-list lookup for the explicit FFI heaps. -/
def heap_lookup {α : Type} : List (Nat × α) → Nat → Option α
  | [], _ => none
  | (q, a) :: rest, p => if p = q then some a else heap_lookup rest p

/-- Removes every binding of a pointer from an FFI heap (`Box::from_raw`
followed by drop). -/
def heap_remove {α : Type} : List (Nat × α) → Nat → List (Nat × α)
  | [], _ => []
  | (q, a) :: rest, p =>
    if q = p then heap_remove rest p else (q, a) :: heap_remove rest p

/-- Explicit model of the process heap seen by the FFI shell: one
association list of live allocations per object type handed across the
boundary, an output cell heap for `*mut bool`, and an allocation counter
providing fresh non-null pointers. -/
structure FFIState where
  verifiers : List (Nat × ProofVerifier)
  proofs : List (Nat × Proof)
  nonces : List (Nat × Nonce)
  strings : List (Nat × List Char)
  bool_cells : List (Nat × Bool)
  next_ptr : Nat
deriving Repr

instance : Inhabited FFIState := ⟨⟨[], [], [], [], [], 0⟩⟩

/-- Dereference of a verifier pointer (the code assumes validity; the model
totalizes with a default). -/
def FFIState.get_verifier (st : FFIState) (p : Nat) : ProofVerifier :=
  (heap_lookup st.verifiers p).getD default

/-- Dereference of a proof pointer. -/
def FFIState.get_proof (st : FFIState) (p : Nat) : Proof :=
  (heap_lookup st.proofs p).getD default

/-- Dereference of a nonce pointer. -/
def FFIState.get_nonce (st : FFIState) (p : Nat) : Nonce :=
  (heap_lookup st.nonces p).getD default

/-- Dereference of a string pointer. -/
def FFIState.get_string (st : FFIState) (p : Nat) : List Char :=
  (heap_lookup st.strings p).getD []

/-- Writing through a `*mut bool` out parameter. -/
def FFIState.write_bool (st : FFIState) (p : Nat) (b : Bool) : FFIState :=
  { st with bool_cells := (p, b) :: st.bool_cells }

/-- Reclaiming a verifier with `Box::from_raw` and dropping it: the
allocation disappears from the heap. -/
def FFIState.free_verifier (st : FFIState) (p : Nat) : FFIState :=
  { st with verifiers := heap_remove st.verifiers p }

/-- FFI shell `indy_crypto_cl_nonce_to_json` (src/ffi/cl/verifier.rs lines
46-70): null-checks the nonce reference and the out pointer, serializes the
nonce and hands back a freshly allocated JSON string.  The result triple is
(returned error code, heap after the call, value written to `*nonce_json_p`,
`0` when nothing was written). -/
def indy_crypto_cl_nonce_to_json (st : FFIState) (nonce : Nat)
    (nonce_json_p : Nat) : ErrorCode × FFIState × Nat :=
  if nonce = 0 then (.CommonInvalidParam1, st, 0)
  else if nonce_json_p = 0 then (.CommonInvalidParam2, st, 0)
  else
    (.Success,
      { st with
        strings := (st.next_ptr + 1, (st.get_nonce nonce).to_json) :: st.strings,
        next_ptr := st.next_ptr + 1 },
      st.next_ptr + 1)

/-- FFI shell `indy_crypto_cl_nonce_from_json` (src/ffi/cl/verifier.rs lines
80-103): null-checks the JSON string and the out pointer, decodes the nonce
and hands back a freshly allocated instance; a decode failure surfaces as
the `InvalidStructure` error code.  The result triple is (returned error
code, heap after the call, value written to `*nonce_p`, `0` when nothing was
written). -/
def indy_crypto_cl_nonce_from_json (st : FFIState) (nonce_json : Nat)
    (nonce_p : Nat) : ErrorCode × FFIState × Nat :=
  if nonce_json = 0 then (.CommonInvalidParam1, st, 0)
  else if nonce_p = 0 then (.CommonInvalidParam2, st, 0)
  else
    match Nonce.from_json (st.get_string nonce_json) with
    | .ok n =>
      (.Success,
        { st with
          nonces := (st.next_ptr + 1, n) :: st.nonces,
          next_ptr := st.next_ptr + 1 },
        st.next_ptr + 1)
    | .error e => (e.to_error_code, st, 0)

/-- FFI shell `indy_crypto_cl_proof_verifier_verify` (src/ffi/cl/verifier.rs
lines 205-234): null-checks the four pointers in order; once they pass, the
verifier is reclaimed with `Box::from_raw` (so it is deallocated when the
call returns, whatever the outcome), `verify` is run, a boolean outcome is
written through `valid_p` with code `Success`, and an error outcome is
returned as its error code. -/
def indy_crypto_cl_proof_verifier_verify (st : FFIState) (proof_verifier : Nat)
    (proof : Nat) (nonce : Nat) (valid_p : Nat) : ErrorCode × FFIState :=
  if proof_verifier = 0 then (.CommonInvalidParam1, st)
  else if proof = 0 then (.CommonInvalidParam2, st)
  else if nonce = 0 then (.CommonInvalidParam3, st)
  else if valid_p = 0 then (.CommonInvalidParam4, st)
  else
    match ((st.get_verifier proof_verifier).verify (st.get_proof proof)
        (st.get_nonce nonce)).1 with
    | .ok valid => (.Success, (st.free_verifier proof_verifier).write_bool valid_p valid)
    | .error e => (e.to_error_code, st.free_verifier proof_verifier)

/-! Concrete instances used by the witnesses and counterexamples below. -/

/-- A tiny issuer key for concrete evaluation. -/
def ipk_small : IssuerPublicKey :=
  { modulus := 97, key_component := 3, attr_base := 5, sig_component := 7 }

/-- A sub-proof request revealing nothing and asserting no predicate. -/
def spr_empty : SubProofRequest := { revealed_attrs := [], predicates := [] }

/-- A sub-proof request revealing an attribute the schema does not have. -/
def spr_bad : SubProofRequest := { revealed_attrs := ["age"], predicates := [] }

/-- A one-attribute schema. -/
def schema_age : ClaimSchema := { attr_names := ["age"] }

/-- An empty schema. -/
def schema_empty : ClaimSchema := { attr_names := [] }

/-- Entry with key id "a" (same content as `entry_b`). -/
def entry_a : VerifierEntry :=
  { key_id := "a", sub_proof_request := spr_empty, claim_schema := schema_age,
    issuer_pub_key := ipk_small, rev_reg_pub := none }

/-- Entry with key id "b" (same content as `entry_a`). -/
def entry_b : VerifierEntry :=
  { key_id := "b", sub_proof_request := spr_empty, claim_schema := schema_age,
    issuer_pub_key := ipk_small, rev_reg_pub := none }

/-- Verifier accumulated in the order a, b. -/
def pv_ab : ProofVerifier := { entries := [entry_a, entry_b], state := .Accumulating }

/-- Verifier accumulated in the order b, a. -/
def pv_ba : ProofVerifier := { entries := [entry_b, entry_a], state := .Accumulating }

/-- A sub-proof with no revocation part and no revealed values. -/
def sp_plain : SubProof :=
  { primary_response := 2, revealed_values := [], non_rev_response := none }

/-- A two-credential proof carrying a (wrong) embedded challenge. -/
def proof_two : Proof := { sub_proofs := [sp_plain, sp_plain], aggregated_challenge := 5 }

/-- An empty proof with embedded challenge 0. -/
def proof_nil : Proof := { sub_proofs := [], aggregated_challenge := 0 }

/-- A small concrete nonce. -/
def nonce_seven : Nonce := { value := 7 }

/-- A concrete FFI heap: a fresh verifier at 1, an empty proof at 2, the
nonce at 3, an undecodable one-character string at 5. -/
def st_demo : FFIState :=
  { verifiers := [(1, Verifier.new_proof_verifier)]
    proofs := [(2, proof_nil)]
    nonces := [(3, nonce_seven)]
    strings := [(5, [Char.ofNat 120])]
    bool_cells := []
    next_ptr := 10 }

/-- Decidable equality for `Except`, used to evaluate concrete verification
results. -/
instance {eps alpha : Type} [DecidableEq eps] [DecidableEq alpha] :
    DecidableEq (Except eps alpha) :=
  fun x y =>
    match x, y with
    | .ok v, .ok w =>
      if h : v = w then isTrue (by rw [h])
      else isFalse (by intro hc; injection hc; contradiction)
    | .error v, .error w =>
      if h : v = w then isTrue (by rw [h])
      else isFalse (by intro hc; injection hc; contradiction)
    | .ok _, .error _ => isFalse (fun hc => Except.noConfusion hc)
    | .error _, .ok _ => isFalse (fun hc => Except.noConfusion hc)

/-! Helper lemmas about the transcript pipeline, the decimal encoding of
nonces, and the explicit heaps. -/

theorem hash_to_int_pos (bs : List Nat) : 1 ≤ hash_to_int bs := by
  cases bs with
  | nil => simp [hash_to_int]
  | cons b rest =>
    have h := hash_to_int_pos rest
    simp only [hash_to_int]
    omega

theorem hash_to_int_inj : ∀ (bs cs : List Nat), (∀ b ∈ bs, b < 256) →
    (∀ c ∈ cs, c < 256) → hash_to_int bs = hash_to_int cs → bs = cs := by
  intro bs
  induction bs with
  | nil =>
    intro cs _ hc h
    cases cs with
    | nil => rfl
    | cons c rest =>
      exfalso
      have hp := hash_to_int_pos rest
      simp only [hash_to_int] at h
      omega
  | cons b rest ih =>
    intro cs hb hc h
    cases cs with
    | nil =>
      exfalso
      have hp := hash_to_int_pos rest
      simp only [hash_to_int] at h
      omega
    | cons c rest2 =>
      simp only [hash_to_int] at h
      have hb1 : b < 256 := hb b (List.mem_cons_self b rest)
      have hc1 : c < 256 := hc c (List.mem_cons_self c rest2)
      rw [Nat.mod_eq_of_lt hb1, Nat.mod_eq_of_lt hc1] at h
      have hbc : b = c ∧ hash_to_int rest = hash_to_int rest2 := by
        constructor <;> omega
      have hrest : rest = rest2 :=
        ih rest2 (fun x hx => hb x (List.mem_cons_of_mem b hx))
          (fun x hx => hc x (List.mem_cons_of_mem c hx)) hbc.2
      rw [hbc.1, hrest]

theorem encode_fixed_length (w n : Nat) : (encode_fixed w n).length = w := by
  induction w generalizing n with
  | zero => rfl
  | succ w ih => simp [encode_fixed, ih]

theorem encode_fixed_lt (w n : Nat) : ∀ b ∈ encode_fixed w n, b < 256 := by
  induction w generalizing n with
  | zero => intro b hb; simp [encode_fixed] at hb
  | succ w ih =>
    intro b hb
    simp only [encode_fixed, List.mem_cons] at hb
    rcases hb with hb | hb
    · rw [hb]; exact Nat.mod_lt _ (by norm_num)
    · exact ih _ b hb

theorem encode_fixed_inj (w : Nat) : ∀ n m, n < 256 ^ w → m < 256 ^ w →
    encode_fixed w n = encode_fixed w m → n = m := by
  induction w with
  | zero => intro n m hn hm _; simp at hn hm; omega
  | succ w ih =>
    intro n m hn hm h
    simp only [encode_fixed, List.cons.injEq] at h
    have hpow : 0 < 256 ^ w := Nat.pos_pow_of_pos w (by norm_num)
    have hdn : n / 256 ^ w < 256 := by
      rw [Nat.div_lt_iff_lt_mul hpow]
      calc n < 256 ^ (w + 1) := hn
      _ = 256 * 256 ^ w := by ring
      _ = 256 * 256 ^ w := rfl
    have hdm : m / 256 ^ w < 256 := by
      rw [Nat.div_lt_iff_lt_mul hpow]
      calc m < 256 ^ (w + 1) := hm
      _ = 256 * 256 ^ w := by ring
    rw [Nat.mod_eq_of_lt hdn, Nat.mod_eq_of_lt hdm] at h
    have hmod : n % 256 ^ w = m % 256 ^ w :=
      ih _ _ (Nat.mod_lt _ hpow) (Nat.mod_lt _ hpow) h.2
    have h1 := Nat.div_add_mod n (256 ^ w)
    have h2 := Nat.div_add_mod m (256 ^ w)
    rw [h.1, hmod] at h1
    omega

theorem serialize_commitments_bytes (cs : List Nat) :
    ∀ b ∈ serialize_commitments cs, b < 256 := by
  induction cs with
  | nil => intro b hb; simp [serialize_commitments] at hb
  | cons c rest ih =>
    intro b hb
    simp only [serialize_commitments, List.mem_append] at hb
    rcases hb with hb | hb
    · exact encode_fixed_lt _ _ b hb
    · exact ih b hb

theorem serialize_commitments_inj : ∀ (cs ds : List Nat),
    (∀ c ∈ cs, c < 256 ^ commitment_byte_width) →
    (∀ d ∈ ds, d < 256 ^ commitment_byte_width) →
    serialize_commitments cs = serialize_commitments ds → cs = ds := by
  intro cs
  induction cs with
  | nil =>
    intro ds _ _ h
    cases ds with
    | nil => rfl
    | cons d rest =>
      exfalso
      have := congrArg List.length h
      simp [serialize_commitments, encode_fixed_length, commitment_byte_width] at this
      omega
  | cons c rest ih =>
    intro ds hc hd h
    cases ds with
    | nil =>
      exfalso
      have := congrArg List.length h
      simp [serialize_commitments, encode_fixed_length, commitment_byte_width] at this
    | cons d rest2 =>
      simp only [serialize_commitments] at h
      have hlen : (encode_fixed commitment_byte_width c).length =
          (encode_fixed commitment_byte_width d).length := by
        rw [encode_fixed_length, encode_fixed_length]
      obtain ⟨h1, h2⟩ := List.append_inj h hlen
      have hcd : c = d :=
        encode_fixed_inj _ _ _ (hc c (List.mem_cons_self c rest))
          (hd d (List.mem_cons_self d rest2)) h1
      have hrest : rest = rest2 :=
        ih rest2 (fun x hx => hc x (List.mem_cons_of_mem c hx))
          (fun x hx => hd x (List.mem_cons_of_mem d hx)) h2
      rw [hcd, hrest]

theorem build_eq_iff (cs ds : List Nat) (nonce : Nonce)
    (hc : ∀ c ∈ cs, c < 256 ^ commitment_byte_width)
    (hd : ∀ d ∈ ds, d < 256 ^ commitment_byte_width) :
    ChallengeTranscriptBuilder.build cs nonce =
      ChallengeTranscriptBuilder.build ds nonce ↔ cs = ds := by
  constructor
  · intro h
    unfold ChallengeTranscriptBuilder.build at h
    have hbytes1 : ∀ b ∈ serialize_commitments cs ++
        encode_fixed commitment_byte_width nonce.value, b < 256 := by
      intro b hb
      rcases List.mem_append.1 hb with hb | hb
      · exact serialize_commitments_bytes cs b hb
      · exact encode_fixed_lt _ _ b hb
    have hbytes2 : ∀ b ∈ serialize_commitments ds ++
        encode_fixed commitment_byte_width nonce.value, b < 256 := by
      intro b hb
      rcases List.mem_append.1 hb with hb | hb
      · exact serialize_commitments_bytes ds b hb
      · exact encode_fixed_lt _ _ b hb
    have happ := hash_to_int_inj _ _ hbytes1 hbytes2 h
    have hser := (List.append_inj' happ rfl).1
    exact serialize_commitments_inj cs ds hc hd hser
  · intro h; rw [h]

theorem heap_lookup_remove {α : Type} (h : List (Nat × α)) (p : Nat) :
    heap_lookup (heap_remove h p) p = none := by
  induction h with
  | nil => rfl
  | cons e rest ih =>
    obtain ⟨q, a⟩ := e
    by_cases hq : q = p
    · simp [heap_remove, hq, ih]
    · simp [heap_remove, hq, heap_lookup, ih, Ne.symm hq]

theorem char_digit_digit_char : ∀ d < 10, char_digit (digit_char d) = some d := by
  decide

theorem map_digits_map (ds : List Nat) (h : ∀ d ∈ ds, d < 10) :
    map_digits (ds.map digit_char) = some ds := by
  induction ds with
  | nil => rfl
  | cons d rest ih =>
    have h1 : char_digit (digit_char d) = some d :=
      char_digit_digit_char d (h d (List.mem_cons_self d rest))
    have h2 : map_digits (rest.map digit_char) = some rest :=
      ih (fun x hx => h x (List.mem_cons_of_mem d hx))
    simp [map_digits, h1, h2]

theorem parse_dec_chars_dec_chars (v : Nat) :
    parse_dec_chars (dec_chars v) = some v := by
  by_cases hv : v = 0
  · subst hv; decide
  · unfold dec_chars
    rw [if_neg hv]
    have hlt : ∀ d ∈ (Nat.digits 10 v).reverse, d < 10 := by
      intro d hd
      exact Nat.digits_lt_base (by norm_num) (List.mem_reverse.1 hd)
    have hmap : map_digits ((Nat.digits 10 v).reverse.map digit_char) =
        some (Nat.digits 10 v).reverse := map_digits_map _ hlt
    rw [List.map_reverse] at hmap
    have hne : Nat.digits 10 v ≠ [] := Nat.digits_ne_nil_iff_ne_zero.2 hv
    unfold parse_dec_chars
    rw [hmap]
    have hempty : ((Nat.digits 10 v).reverse).isEmpty = false := by
      cases hdig : Nat.digits 10 v with
      | nil => exact absurd hdig hne
      | cons a l => simp [hdig]
    show (if ((Nat.digits 10 v).reverse).isEmpty = true then none
          else some (of_dec_digits (Nat.digits 10 v).reverse)) = some v
    rw [hempty]
    simp only [Bool.false_eq_true, if_false]
    unfold of_dec_digits
    rw [List.reverse_reverse, Nat.ofDigits_digits]

theorem from_json_to_json (n : Nonce) : Nonce.from_json (Nonce.to_json n) = .ok n := by
  have hlast : (dec_chars n.value ++ [Char.ofNat 34]).getLast? = some (Char.ofNat 34) := by
    simp
  have hdrop : (dec_chars n.value ++ [Char.ofNat 34]).dropLast = dec_chars n.value := by
    simp
  show Nonce.from_json (Char.ofNat 34 :: (dec_chars n.value ++ [Char.ofNat 34])) = .ok n
  simp [Nonce.from_json, hlast, hdrop, parse_dec_chars_dec_chars]

theorem verify_ok_false_of_challenge_mismatch (pv : ProofVerifier) (proof : Proof)
    (nonce : Nonce) (h1 : pv.state = VerifierState.Accumulating)
    (h2 : proof.sub_proofs.length = pv.entries.length)
    (h3 : rev_flags_match pv.entries proof.sub_proofs = true)
    (h4 : recomputed_challenge pv proof nonce ≠ proof.aggregated_challenge) :
    (pv.verify proof nonce).1 = .ok false := by
  unfold ProofVerifier.verify
  rw [h1]
  simp [h2, h3, h4]

theorem verify_ok_state_verified (pv pv' : ProofVerifier) (proof : Proof)
    (nonce : Nonce) (b : Bool) (h : pv.verify proof nonce = (.ok b, pv')) :
    pv'.state = VerifierState.Verified := by
  unfold ProofVerifier.verify at h
  split at h
  · simp at h
  · split at h
    · simp at h
    · split at h
      · simp at h
      · simp only [Prod.mk.injEq] at h
        rw [← h.2]

theorem verify_verified_invalid_state (pv : ProofVerifier) (proof : Proof)
    (nonce : Nonce) (h : pv.state = VerifierState.Verified) :
    pv.verify proof nonce = (.error .InvalidState, pv) := by
  unfold ProofVerifier.verify
  rw [h]
  simp

theorem from_json_error_is_invalid_structure (cs : List Char) (e : IndyCryptoError)
    (h : Nonce.from_json cs = .error e) : e = IndyCryptoError.InvalidStructure := by
  cases cs with
  | nil => simp [Nonce.from_json] at h; exact h.symm
  | cons q rest =>
    simp only [Nonce.from_json] at h
    by_cases hc : q = Char.ofNat 34 ∧ rest.getLast? = some (Char.ofNat 34)
    · rw [if_pos hc] at h
      cases hp : parse_dec_chars rest.dropLast with
      | some v => simp [hp] at h
      | none => simp [hp] at h; exact h.symm
    · rw [if_neg hc] at h
      injection h with h2
      exact h2.symm

theorem heap_lookup_cons_self {α : Type} (h : List (Nat × α)) (p : Nat) (a : α) :
    heap_lookup ((p, a) :: h) p = some a := by
  simp [heap_lookup]

/-! Claim theorems.  Each theorem settles one claim of the specification
audit; witnesses instantiate the theorems at concrete inputs. -/

/-- C1: for every proof whose embedded challenge value does not equal the
challenge recomputed by hashing the transcript built from that proof's own
commitments and the supplied nonce, `verify` returns `false` — a negative
boolean result, not an error (the structural hypotheses state that `verify`
reaches its cryptographic comparison: the verifier is consumable, the
sub-proof count matches, the revocation flags match). -/
theorem spec_c1_challenge_mismatch_returns_false (pv : ProofVerifier)
    (proof : Proof) (nonce : Nonce)
    (h1 : pv.state = VerifierState.Accumulating)
    (h2 : proof.sub_proofs.length = pv.entries.length)
    (h3 : rev_flags_match pv.entries proof.sub_proofs = true)
    (h4 : recomputed_challenge pv proof nonce ≠ proof.aggregated_challenge) :
    (pv.verify proof nonce).1 = .ok false :=
  verify_ok_false_of_challenge_mismatch pv proof nonce h1 h2 h3 h4

/-- C1 witness: a fresh verifier against the empty proof with embedded
challenge 0 (which the rebuilt challenge never equals) returns `ok false`. -/
theorem spec_c1_witness :
    (Verifier.new_proof_verifier.verify proof_nil nonce_seven).1 = .ok false :=
  spec_c1_challenge_mismatch_returns_false Verifier.new_proof_verifier proof_nil
    nonce_seven rfl rfl rfl
    (by set_option maxRecDepth 10000 in decide)

/-- C3: after any `verify` call that produced a boolean outcome (true or
false alike), the verifier is in the terminal `Verified` state and a second
`verify` fails with `InvalidState`, leaving the verifier untouched. -/
theorem spec_c3_verify_consumes_verifier (pv pv' : ProofVerifier)
    (proof proof2 : Proof) (nonce nonce2 : Nonce) (b : Bool)
    (h : pv.verify proof nonce = (.ok b, pv')) :
    pv'.state = VerifierState.Verified ∧
    pv'.verify proof2 nonce2 = (.error .InvalidState, pv') := by
  have hs := verify_ok_state_verified pv pv' proof nonce b h
  exact ⟨hs, verify_verified_invalid_state pv' proof2 nonce2 hs⟩

/-- C3 witness: the fresh verifier verifies the empty proof once (outcome
`false`), after which the returned verifier is `Verified` and rejects a
second call with `InvalidState`. -/
theorem spec_c3_witness :
    ({ entries := [], state := .Verified } : ProofVerifier).state =
      VerifierState.Verified ∧
    ({ entries := [], state := .Verified } : ProofVerifier).verify proof_nil
        nonce_seven =
      (.error .InvalidState, ({ entries := [], state := .Verified } : ProofVerifier)) :=
  spec_c3_verify_consumes_verifier Verifier.new_proof_verifier
    { entries := [], state := .Verified } proof_nil proof_nil nonce_seven
    nonce_seven false (by set_option maxRecDepth 10000 in decide)

/-- C5: a proof whose sub-proof count differs from the number of accumulated
requests, or whose revocation-presence flags do not match the requests,
fails with `ProofRejected` — a structural-mismatch error distinct from the
`false` cryptographic result (and, the model being a total function, no
crash is possible). -/
theorem spec_c5_structural_mismatch_proof_rejected (pv : ProofVerifier)
    (proof : Proof) (nonce : Nonce)
    (h1 : pv.state = VerifierState.Accumulating)
    (h2 : proof.sub_proofs.length ≠ pv.entries.length ∨
          rev_flags_match pv.entries proof.sub_proofs = false) :
    (pv.verify proof nonce).1 = .error .ProofRejected := by
  unfold ProofVerifier.verify
  rw [h1]
  rcases h2 with h2 | h2
  · simp [h2]
  · by_cases hlen : proof.sub_proofs.length = pv.entries.length
    · simp [hlen, h2]
    · simp [hlen]

/-- C5 witness: a two-sub-proof proof against a fresh (empty) verifier is
rejected with `ProofRejected`. -/
theorem spec_c5_witness :
    (Verifier.new_proof_verifier.verify proof_two nonce_seven).1 =
      .error .ProofRejected :=
  spec_c5_structural_mismatch_proof_rejected Verifier.new_proof_verifier
    proof_two nonce_seven rfl (Or.inl (by decide))

set_option maxRecDepth 10000 in
/-- C2 counterexample: two verifiers accumulated from the same two sub-proof
requests in opposite insertion orders (the entries differ only in which key
id comes first, so the runs genuinely differ in order).  The claim asserts
the resulting challenges differ and the reordered run verifies to `false`
differently; in fact both orders rebuild byte-for-byte the same challenge
and `verify` returns the same result, because the two requests carry
identical request/schema/key content and so contribute identical commitment
encodings in either order. -/
theorem spec_c2_counterexample :
    pv_ab ≠ pv_ba ∧
    pv_ba.entries = pv_ab.entries.reverse ∧
    recomputed_challenge pv_ba proof_two nonce_seven =
      recomputed_challenge pv_ab proof_two nonce_seven ∧
    (pv_ba.verify proof_two nonce_seven).1 = (pv_ab.verify proof_two nonce_seven).1 := by
  decide

/-- C2 (amended): `ChallengeTranscriptBuilder::build` is deterministic and
injective on (fixed-width-bounded) commitment sequences under a fixed nonce:
two runs produce the same challenge exactly when their ordered commitment
sequences coincide.  Hence a reordering changes the challenge — and makes
verification of the original proof fail — precisely when it changes the
recomputed commitment sequence; reorderings of content-identical requests
leave both unchanged. -/
theorem spec_c2_build_deterministic_and_order_binding (cs ds : List Nat)
    (nonce : Nonce)
    (hc : ∀ c ∈ cs, c < 256 ^ commitment_byte_width)
    (hd : ∀ d ∈ ds, d < 256 ^ commitment_byte_width) :
    ChallengeTranscriptBuilder.build cs nonce =
      ChallengeTranscriptBuilder.build ds nonce ↔ cs = ds :=
  build_eq_iff cs ds nonce hc hd

/-- C2 witness: two distinct one-commitment transcripts hash to distinct
challenges. -/
theorem spec_c2_witness :
    ChallengeTranscriptBuilder.build [0] nonce_seven =
      ChallengeTranscriptBuilder.build [1] nonce_seven ↔ ([0] : List Nat) = [1] :=
  spec_c2_build_deterministic_and_order_binding [0] [1] nonce_seven
    (by decide) (by decide)

/-- C4: when `verify` completes its checks and the proof is merely invalid
(core outcome `ok false`), the FFI call reports `ErrorCode::Success` and
writes `false` through `valid_p` — cryptographic invalidity never travels
on the error channel. -/
theorem spec_c4_invalid_proof_success_false (st : FFIState) (pvp pp np vp : Nat)
    (h1 : pvp ≠ 0) (h2 : pp ≠ 0) (h3 : np ≠ 0) (h4 : vp ≠ 0)
    (h5 : ((st.get_verifier pvp).verify (st.get_proof pp) (st.get_nonce np)).1 =
      .ok false) :
    (indy_crypto_cl_proof_verifier_verify st pvp pp np vp).1 = ErrorCode.Success ∧
    heap_lookup (indy_crypto_cl_proof_verifier_verify st pvp pp np vp).2.bool_cells
      vp = some false := by
  unfold indy_crypto_cl_proof_verifier_verify
  rw [if_neg h1, if_neg h2, if_neg h3, if_neg h4, h5]
  exact ⟨rfl, heap_lookup_cons_self _ _ _⟩

/-- C4 witness: on the demo heap the invalid empty proof yields `Success`
and `*valid_p = false`. -/
theorem spec_c4_witness :
    (indy_crypto_cl_proof_verifier_verify st_demo 1 2 3 4).1 = ErrorCode.Success ∧
    heap_lookup (indy_crypto_cl_proof_verifier_verify st_demo 1 2 3 4).2.bool_cells
      4 = some false :=
  spec_c4_invalid_proof_success_false st_demo 1 2 3 4 (by decide) (by decide)
    (by decide) (by decide) (by set_option maxRecDepth 10000 in decide)

/-- C9: whenever the four pointer arguments pass the null checks, the
verifier allocation is reclaimed and gone from the heap when the call
returns — whatever `verify` produced; and when any null check fails the
heap (hence the verifier) is left untouched. -/
theorem spec_c9_verify_always_frees_verifier (st : FFIState) (pvp pp np vp : Nat) :
    (pvp ≠ 0 → pp ≠ 0 → np ≠ 0 → vp ≠ 0 →
      heap_lookup (indy_crypto_cl_proof_verifier_verify st pvp pp np vp).2.verifiers
        pvp = none) ∧
    (pvp = 0 ∨ pp = 0 ∨ np = 0 ∨ vp = 0 →
      (indy_crypto_cl_proof_verifier_verify st pvp pp np vp).2 = st) := by
  constructor
  · intro h1 h2 h3 h4
    unfold indy_crypto_cl_proof_verifier_verify
    rw [if_neg h1, if_neg h2, if_neg h3, if_neg h4]
    cases hres : ((st.get_verifier pvp).verify (st.get_proof pp) (st.get_nonce np)).1 with
    | ok v => exact heap_lookup_remove _ _
    | error e => exact heap_lookup_remove _ _
  · intro h
    unfold indy_crypto_cl_proof_verifier_verify
    by_cases h1 : pvp = 0
    · rw [if_pos h1]
    · rw [if_neg h1]
      by_cases h2 : pp = 0
      · rw [if_pos h2]
      · rw [if_neg h2]
        by_cases h3 : np = 0
        · rw [if_pos h3]
        · rw [if_neg h3]
          have h4 : vp = 0 := by tauto
          rw [if_pos h4]

/-- C9 witness: on the demo heap the verifier at pointer 1 is gone after a
full call, and a call rejected by the first null check leaves the heap
unchanged. -/
theorem spec_c9_witness :
    heap_lookup (indy_crypto_cl_proof_verifier_verify st_demo 1 2 3 4).2.verifiers
      1 = none ∧
    (indy_crypto_cl_proof_verifier_verify st_demo 0 2 3 4).2 = st_demo :=
  ⟨(spec_c9_verify_always_frees_verifier st_demo 1 2 3 4).1 (by decide) (by decide)
      (by decide) (by decide),
   (spec_c9_verify_always_frees_verifier st_demo 0 2 3 4).2 (Or.inl rfl)⟩

/-- C6 counterexample: a fresh key id whose sub-proof request does not
validate against the schema (it reveals "age" against an empty schema) is
not appended — the call fails with `InvalidStructure` and leaves the mapping
unchanged — refuting the claim's "otherwise the entry is appended". -/
theorem spec_c6_counterexample :
    Verifier.new_proof_verifier.key_ids.contains "k" = false ∧
    (Verifier.new_proof_verifier.add_sub_proof_request "k" spr_bad schema_empty
        ipk_small none).2.entries ≠
      Verifier.new_proof_verifier.entries ++
        [{ key_id := "k", sub_proof_request := spr_bad, claim_schema := schema_empty,
           issuer_pub_key := ipk_small, rev_reg_pub := none }] ∧
    Verifier.new_proof_verifier.add_sub_proof_request "k" spr_bad schema_empty
        ipk_small none =
      (some .InvalidStructure, Verifier.new_proof_verifier) := by
  decide

theorem key_ids_append_entry (es : List VerifierEntry) (e : VerifierEntry)
    (s : VerifierState) :
    (({ entries := es ++ [e], state := s } : ProofVerifier)).key_ids =
      es.map VerifierEntry.key_id ++ [e.key_id] := by
  simp [ProofVerifier.key_ids]

/-- C6 (amended): in the `Accumulating` state, `add_sub_proof_request` with
a duplicate key id fails with `DuplicateKeyId` and leaves the mapping
unchanged; with a fresh key id it appends the entry at the end of the
ordered mapping (extending the canonical key-id order) when the request
validates against the schema, and fails with `InvalidStructure` leaving the
mapping unchanged when it does not; key-id uniqueness is preserved by every
call. -/
theorem spec_c6_add_preserves_order_and_uniqueness (pv : ProofVerifier)
    (key : String) (spr : SubProofRequest) (schema : ClaimSchema)
    (ipk : IssuerPublicKey) (rrp : Option RevocationRegistryPublic)
    (h : pv.state = VerifierState.Accumulating) :
    (pv.key_ids.contains key = true →
      pv.add_sub_proof_request key spr schema ipk rrp = (some .DuplicateKeyId, pv)) ∧
    (pv.key_ids.contains key = false → spr.validate_against schema = .ok () →
      (pv.add_sub_proof_request key spr schema ipk rrp).1 = none ∧
      (pv.add_sub_proof_request key spr schema ipk rrp).2.entries =
        pv.entries ++
          [{ key_id := key, sub_proof_request := spr, claim_schema := schema,
             issuer_pub_key := ipk, rev_reg_pub := rrp }] ∧
      (pv.add_sub_proof_request key spr schema ipk rrp).2.key_ids =
        pv.key_ids ++ [key]) ∧
    (pv.key_ids.contains key = false →
      spr.validate_against schema = .error .InvalidStructure →
      pv.add_sub_proof_request key spr schema ipk rrp =
        (some .InvalidStructure, pv)) ∧
    (pv.key_ids.Nodup →
      (pv.add_sub_proof_request key spr schema ipk rrp).2.key_ids.Nodup) := by
  have hstate : ¬ pv.state = VerifierState.Verified := by rw [h]; simp
  refine ⟨?_, ?_, ?_, ?_⟩
  · intro hk
    unfold ProofVerifier.add_sub_proof_request
    rw [if_neg hstate, if_pos hk]
  · intro hk hv
    unfold ProofVerifier.add_sub_proof_request
    rw [if_neg hstate, if_neg (by rw [hk]; simp), hv]
    refine ⟨rfl, rfl, ?_⟩
    simp [ProofVerifier.key_ids]
  · intro hk hv
    unfold ProofVerifier.add_sub_proof_request
    rw [if_neg hstate, if_neg (by rw [hk]; simp), hv]
  · intro hnd
    unfold ProofVerifier.add_sub_proof_request
    rw [if_neg hstate]
    by_cases hk : pv.key_ids.contains key = true
    · rw [if_pos hk]
      exact hnd
    · rw [if_neg hk]
      have hkf : List.elem key pv.key_ids = false := by
        cases he : List.elem key pv.key_ids
        · rfl
        · exact absurd he hk
      have hnotmem : key ∉ pv.key_ids := by
        intro hm
        rw [List.elem_eq_true_of_mem hm] at hkf
        exact Bool.noConfusion hkf
      cases hv : spr.validate_against schema with
      | error e => exact hnd
      | ok u =>
        cases u
        show (({ entries := pv.entries ++
                  [{ key_id := key, sub_proof_request := spr, claim_schema := schema,
                     issuer_pub_key := ipk, rev_reg_pub := rrp }],
                 state := pv.state } : ProofVerifier)).key_ids.Nodup
        rw [key_ids_append_entry, List.nodup_append]
        exact ⟨hnd, List.nodup_singleton key,
          fun x hx hx2 => hnotmem (by rwa [List.mem_singleton.1 hx2] at hx)⟩

/-- C6 witness: on the two-entry verifier, re-adding key id "a" fails with
`DuplicateKeyId` and changes nothing; the remaining branches and the
uniqueness-preservation conjunct are instantiated at the same input. -/
theorem spec_c6_witness :
    (pv_ab.key_ids.contains "a" = true →
      pv_ab.add_sub_proof_request "a" spr_empty schema_age ipk_small none =
        (some .DuplicateKeyId, pv_ab)) ∧
    (pv_ab.key_ids.contains "a" = false →
      spr_empty.validate_against schema_age = .ok () →
      (pv_ab.add_sub_proof_request "a" spr_empty schema_age ipk_small none).1 = none ∧
      (pv_ab.add_sub_proof_request "a" spr_empty schema_age ipk_small none).2.entries =
        pv_ab.entries ++
          [{ key_id := "a", sub_proof_request := spr_empty, claim_schema := schema_age,
             issuer_pub_key := ipk_small, rev_reg_pub := none }] ∧
      (pv_ab.add_sub_proof_request "a" spr_empty schema_age ipk_small none).2.key_ids =
        pv_ab.key_ids ++ ["a"]) ∧
    (pv_ab.key_ids.contains "a" = false →
      spr_empty.validate_against schema_age = .error .InvalidStructure →
      pv_ab.add_sub_proof_request "a" spr_empty schema_age ipk_small none =
        (some .InvalidStructure, pv_ab)) ∧
    (pv_ab.key_ids.Nodup →
      (pv_ab.add_sub_proof_request "a" spr_empty schema_age ipk_small none).2.key_ids.Nodup) :=
  spec_c6_add_preserves_order_and_uniqueness pv_ab "a" spr_empty schema_age
    ipk_small none rfl

/-- C7: inputs arriving at the external boundary are handled totally and
with distinguishable errors: null pointers are rejected with the
corresponding parameter error code, an undecodable nonce JSON surfaces as
`CommonInvalidStructure`, and in every such case the heap is untouched and
nothing is written through the out pointer — the embedding being a total
function, no crash or dereference of the bad input is possible. -/
theorem spec_c7_boundary_inputs_never_crash (st : FFIState)
    (json_ptr out_ptr pvp pp np vp : Nat) :
    (json_ptr = 0 →
      indy_crypto_cl_nonce_from_json st json_ptr out_ptr =
        (ErrorCode.CommonInvalidParam1, st, 0)) ∧
    (json_ptr ≠ 0 → out_ptr = 0 →
      indy_crypto_cl_nonce_from_json st json_ptr out_ptr =
        (ErrorCode.CommonInvalidParam2, st, 0)) ∧
    (∀ e, json_ptr ≠ 0 → out_ptr ≠ 0 →
      Nonce.from_json (st.get_string json_ptr) = .error e →
      indy_crypto_cl_nonce_from_json st json_ptr out_ptr =
        (ErrorCode.CommonInvalidStructure, st, 0)) ∧
    (pvp = 0 →
      indy_crypto_cl_proof_verifier_verify st pvp pp np vp =
        (ErrorCode.CommonInvalidParam1, st)) ∧
    (pvp ≠ 0 → pp = 0 →
      indy_crypto_cl_proof_verifier_verify st pvp pp np vp =
        (ErrorCode.CommonInvalidParam2, st)) ∧
    (pvp ≠ 0 → pp ≠ 0 → np = 0 →
      indy_crypto_cl_proof_verifier_verify st pvp pp np vp =
        (ErrorCode.CommonInvalidParam3, st)) ∧
    (pvp ≠ 0 → pp ≠ 0 → np ≠ 0 → vp = 0 →
      indy_crypto_cl_proof_verifier_verify st pvp pp np vp =
        (ErrorCode.CommonInvalidParam4, st)) := by
  refine ⟨?_, ?_, ?_, ?_, ?_, ?_, ?_⟩
  · intro hj
    unfold indy_crypto_cl_nonce_from_json
    rw [if_pos hj]
  · intro hj ho
    unfold indy_crypto_cl_nonce_from_json
    rw [if_neg hj, if_pos ho]
  · intro e hj ho hdec
    have he : e = IndyCryptoError.InvalidStructure :=
      from_json_error_is_invalid_structure _ e hdec
    unfold indy_crypto_cl_nonce_from_json
    rw [if_neg hj, if_neg ho, hdec, he]
    rfl
  · intro h1
    unfold indy_crypto_cl_proof_verifier_verify
    rw [if_pos h1]
  · intro h1 h2
    unfold indy_crypto_cl_proof_verifier_verify
    rw [if_neg h1, if_pos h2]
  · intro h1 h2 h3
    unfold indy_crypto_cl_proof_verifier_verify
    rw [if_neg h1, if_neg h2, if_pos h3]
  · intro h1 h2 h3 h4
    unfold indy_crypto_cl_proof_verifier_verify
    rw [if_neg h1, if_neg h2, if_neg h3, if_pos h4]

/-- C7 witness: on the demo heap the string "x" at pointer 5 is undecodable
and the call returns `CommonInvalidStructure` leaving the heap unchanged. -/
theorem spec_c7_witness :
    indy_crypto_cl_nonce_from_json st_demo 5 7 =
      (ErrorCode.CommonInvalidStructure, st_demo, 0) :=
  (spec_c7_boundary_inputs_never_crash st_demo 5 7 1 2 3 4).2.2.1
    IndyCryptoError.InvalidStructure (by decide) (by decide) (by decide)

/-- C10: serializing any heap-resident nonce with
`indy_crypto_cl_nonce_to_json` succeeds, and deserializing the produced JSON
string with `indy_crypto_cl_nonce_from_json` succeeds and allocates a nonce
equal (by integer value) to the original. -/
theorem spec_c10_nonce_json_round_trip (st : FFIState) (np jp op : Nat)
    (n : Nonce) (h1 : np ≠ 0) (h2 : jp ≠ 0) (h3 : op ≠ 0)
    (h4 : heap_lookup st.nonces np = some n) :
    (indy_crypto_cl_nonce_to_json st np jp).1 = ErrorCode.Success ∧
    (indy_crypto_cl_nonce_from_json (indy_crypto_cl_nonce_to_json st np jp).2.1
      (indy_crypto_cl_nonce_to_json st np jp).2.2 op).1 = ErrorCode.Success ∧
    heap_lookup
      (indy_crypto_cl_nonce_from_json (indy_crypto_cl_nonce_to_json st np jp).2.1
        (indy_crypto_cl_nonce_to_json st np jp).2.2 op).2.1.nonces
      (indy_crypto_cl_nonce_from_json (indy_crypto_cl_nonce_to_json st np jp).2.1
        (indy_crypto_cl_nonce_to_json st np jp).2.2 op).2.2 = some n := by
  have hget : st.get_nonce np = n := by
    unfold FFIState.get_nonce
    rw [h4]
    rfl
  have hto : indy_crypto_cl_nonce_to_json st np jp =
      (ErrorCode.Success,
        { st with
          strings := (st.next_ptr + 1, n.to_json) :: st.strings,
          next_ptr := st.next_ptr + 1 },
        st.next_ptr + 1) := by
    unfold indy_crypto_cl_nonce_to_json
    rw [if_neg h1, if_neg h2, hget]
  rw [hto]
  have hs : FFIState.get_string
      { st with
        strings := (st.next_ptr + 1, n.to_json) :: st.strings,
        next_ptr := st.next_ptr + 1 } (st.next_ptr + 1) = n.to_json := by
    unfold FFIState.get_string
    rw [heap_lookup_cons_self]
    rfl
  refine ⟨rfl, ?_, ?_⟩
  · unfold indy_crypto_cl_nonce_from_json
    rw [if_neg (Nat.succ_ne_zero st.next_ptr), if_neg h3, hs, from_json_to_json]
  · unfold indy_crypto_cl_nonce_from_json
    rw [if_neg (Nat.succ_ne_zero st.next_ptr), if_neg h3, hs, from_json_to_json]
    exact heap_lookup_cons_self _ _ _

/-- C10 witness: the nonce 7 stored at pointer 3 of the demo heap survives
the JSON round trip. -/
theorem spec_c10_witness :
    (indy_crypto_cl_nonce_to_json st_demo 3 9).1 = ErrorCode.Success ∧
    (indy_crypto_cl_nonce_from_json (indy_crypto_cl_nonce_to_json st_demo 3 9).2.1
      (indy_crypto_cl_nonce_to_json st_demo 3 9).2.2 11).1 = ErrorCode.Success ∧
    heap_lookup
      (indy_crypto_cl_nonce_from_json (indy_crypto_cl_nonce_to_json st_demo 3 9).2.1
        (indy_crypto_cl_nonce_to_json st_demo 3 9).2.2 11).2.1.nonces
      (indy_crypto_cl_nonce_from_json (indy_crypto_cl_nonce_to_json st_demo 3 9).2.1
        (indy_crypto_cl_nonce_to_json st_demo 3 9).2.2 11).2.2 = some nonce_seven :=
  spec_c10_nonce_json_round_trip st_demo 3 9 11 nonce_seven (by decide) (by decide)
    (by decide) (by decide)

/-- C8: `validate_against` fails with `InvalidStructure` exactly when some
revealed attribute name is absent from the schema's attribute names or some
predicate references an attribute in the revealed set; being a pure
function of its two arguments it has no side effects on either. -/
theorem spec_c8_validate_against_iff (spr : SubProofRequest) (schema : ClaimSchema) :
    spr.validate_against schema = .error .InvalidStructure ↔
      (∃ a ∈ spr.revealed_attrs, a ∉ schema.attr_names) ∨
      (∃ p ∈ spr.predicates, p.attr_name ∈ spr.revealed_attrs) := by
  unfold SubProofRequest.validate_against
  by_cases hb : (spr.revealed_attrs.all (fun a => schema.attr_names.contains a) &&
      spr.predicates.all (fun p => !spr.revealed_attrs.contains p.attr_name)) = true
  · rw [if_pos hb]
    simp only [Bool.and_eq_true, List.all_eq_true] at hb
    constructor
    · intro hcontra
      exact Except.noConfusion hcontra
    · intro hr
      exfalso
      rcases hr with ⟨a, ha, hna⟩ | ⟨p, hp, hmem⟩
      · have h1 : List.elem a schema.attr_names = true := hb.1 a ha
        exact hna (List.mem_of_elem_eq_true h1)
      · have h2 := hb.2 p hp
        have h3 : List.elem p.attr_name spr.revealed_attrs = true :=
          List.elem_eq_true_of_mem hmem
        rw [show (!spr.revealed_attrs.contains p.attr_name) =
            !(List.elem p.attr_name spr.revealed_attrs) from rfl, h3] at h2
        exact Bool.noConfusion h2
  · rw [if_neg hb]
    constructor
    · intro _
      by_contra hn
      push_neg at hn
      apply hb
      simp only [Bool.and_eq_true, List.all_eq_true]
      constructor
      · intro a ha
        exact List.elem_eq_true_of_mem (hn.1 a ha)
      · intro p hp
        cases hel : List.elem p.attr_name spr.revealed_attrs with
        | false =>
          rw [show (!spr.revealed_attrs.contains p.attr_name) =
              !(List.elem p.attr_name spr.revealed_attrs) from rfl, hel]
          rfl
        | true =>
          exact absurd (List.mem_of_elem_eq_true hel) (hn.2 p hp)
    · intro _
      rfl
